import Mathlib

/-!
Verification development for the apidoc extraction pipeline.

The definitions below are a shallow embedding of the Go sources:
* `parser/api.go` — the tag parser (`parser.parseAPI`, `api.parseAPI`,
  `api.parseRequest`);
* `types` (the builder): `Doc.parseAPI` and `Doc.getOperation`;
* `build` (`Input.parseFile`): the lexer driver loop.

Strings are modelled as Lean `String`s; the sources are ASCII so byte
indices and character indices coincide on every input considered here.
Go maps are modelled as association lists updated in place.
-/

namespace Apidoc

/-! ## Shared string helpers -/

/-- Models `bytes.ToLower` / `strings.ToLower` (ASCII). -/
def lowerStr (s : String) : String :=
  String.mk (s.toList.map Char.toLower)

/-- Models `strings.ToUpper` (ASCII). -/
def upperStr (s : String) : String :=
  String.mk (s.toList.map Char.toUpper)

/-- Scan a character list up to the first occurrence of `c`; return the part
before it and, when `c` occurs, the part after it. -/
def breakAtChar (c : Char) : List Char → List Char × Option (List Char)
  | [] => ([], none)
  | x :: xs =>
    if x = c then ([], some xs)
    else
      let p := breakAtChar c xs
      (x :: p.1, p.2)

/-- Models Go `strings.SplitN s sep n` for the single-character separator
`" "`: at most `n` fields, the last field keeps the remainder verbatim. -/
def splitNSpaceAux : Nat → List Char → List (List Char)
  | _, [] => [[]]
  | 0, cs => [cs]
  | 1, cs => [cs]
  | Nat.succ m, cs =>
    match breakAtChar ' ' cs with
    | (pre, none) => [pre]
    | (pre, some rest) => pre :: splitNSpaceAux m rest

/-- `strings.SplitN (api.API) " " 3` as used by `Doc.getOperation`. -/
def splitN3 (s : String) : List String :=
  (splitNSpaceAux 3 s.toList).map (fun l => String.mk l)

def isWSChar (c : Char) : Bool :=
  c = ' ' || c = '\t' || c = '\n' || c = '\r'

def dropWS : List Char → List Char
  | [] => []
  | c :: cs => if isWSChar c then dropWS cs else c :: cs

def takeWord : List Char → List Char × List Char
  | [] => ([], [])
  | c :: cs =>
    if isWSChar c then ([], c :: cs)
    else
      let p := takeWord cs
      (c :: p.1, p.2)

/-- Modelled from the spec: the parser's `split(data, n)` helper is not among
the provided source files.  The spec defines it as: split on runs of
whitespace into at most `n` fields; the last field captures the remainder
verbatim. -/
def splitFieldsAux : Nat → List Char → List (List Char)
  | n, cs =>
    match dropWS cs, n with
    | [], _ => []
    | c :: cs', 0 => [c :: cs']
    | c :: cs', 1 => [c :: cs']
    | c :: cs', Nat.succ m =>
      let p := takeWord (c :: cs')
      p.1 :: splitFieldsAux m p.2

/-- `split(data, n)` of the parser (see `splitFieldsAux`). -/
def split (data : String) (n : Nat) : List String :=
  (splitFieldsAux n data.toList).map (fun l => String.mk l)

/-! ## OpenAPI fragments used by the parser (`openapi` package) -/

/-- `openapi.Schema`, restricted to the fields written by `parser/api.go`
(`Type` and `Default`).  `defaultVal` models the Go field `Default`. -/
structure Schema where
  type : String := ""
  defaultVal : String := ""
deriving DecidableEq, Repr

/-- `openapi.MediaType`, restricted to the `Schema` field. -/
structure MediaType where
  schema : Option Schema := none
deriving DecidableEq, Repr

/-- `openapi.RequestBody`: `Content` is a Go map keyed by mime type,
modelled as an association list. -/
structure RequestBody where
  content : List (String × MediaType) := []
deriving DecidableEq, Repr

/-- `openapi.ParameterINQuery` / `openapi.ParameterINPath` and the other
locations of the spec's data model. -/
inductive ParamIn
  | query
  | path
  | header
  | cookie
deriving DecidableEq, Repr

/-- `openapi.Parameter`, restricted to the fields written by
`parser/api.go`. -/
structure Parameter where
  name : String
  inLoc : ParamIn
  description : String
  required : Bool
  allowEmptyValue : Bool := false
  schema : Option Schema := none
deriving DecidableEq, Repr

/-! ## The parser's `api` object and tag stream (`parser/api.go`) -/

/-- One `@tag` token of the stream produced by the tag splitter.  The Go
`tag` also carries file and line (used only for error positions), which no
claim here depends on. -/
structure Tag where
  name : String
  data : String
deriving DecidableEq, Repr

/-- The `api` struct of `parser/api.go`.  The `responses` map field of the
Go struct is never assigned by the provided source and is omitted. -/
structure Api where
  method : String := ""
  path : String := ""
  summary : String := ""
  description : String := ""
  group : String := ""
  tags : List String := []
  version : String := ""
  deprecated : Bool := false
  params : List Parameter := []
  request : Option RequestBody := none
deriving DecidableEq, Repr

/-- The locale keys raised by `parser/api.go`, each carrying the tag name
interpolated into the message. -/
inductive ParseError
  | duplicateTag (name : String)
  | invalidFormat (name : String)
  | invalidTag (name : String)
  | tagArgNotEnough (name : String)
deriving DecidableEq, Repr

/-- Modelled from the spec: validity of a version per
`version.SemVerValid` (package `github.com/issue9/version`, not among the
provided files).  The spec defines validity as `X.Y.Z[-pre][+build]` with
numeric `X`, `Y`, `Z`. -/
def numericGroup (cs : List Char) : Bool :=
  !cs.isEmpty && cs.all Char.isDigit

/-- Modelled from the spec: a pre-release or build suffix group. -/
def identGroup (cs : List Char) : Bool :=
  !cs.isEmpty && cs.all (fun ch => ch.isAlphanum || ch = '-' || ch = '.')

/-- Split a character list on every occurrence of `c`. -/
def splitOnChar (c : Char) : List Char → List (List Char)
  | [] => [[]]
  | x :: xs =>
    let r := splitOnChar c xs
    if x = c then [] :: r
    else
      match r with
      | [] => [[x]]
      | g :: gs => (x :: g) :: gs

/-- Modelled from the spec: `version.SemVerValid` (see `numericGroup`). -/
def semVerValid (s : String) : Bool :=
  let pPlus := breakAtChar '+' s.toList
  let pDash := breakAtChar '-' pPlus.1
  (match splitOnChar '.' pDash.1 with
   | [ma, mi, pa] => numericGroup ma && numericGroup mi && numericGroup pa
   | _ => false)
  && (match pDash.2 with
      | none => true
      | some p => identGroup p)
  && (match pPlus.2 with
      | none => true
      | some b => identGroup b)

/-- The `@apiTags` splitting loop of `api.parseAPI` (`parser/api.go`).
Faithful to the source, which recomputes `index` from the *original*
`tag.data` on every iteration and never advances `start`:

* `orig` is `tag.data`, `data` the loop's `data` variable, `acc` the
  accumulated `obj.tags`.
* `index := bytes.IndexByte(tag.data, com)`; when `index <= 0` the loop
  appends `data[start:]` and breaks; otherwise it appends `data[start:index]`
  and sets `data = tag.data[index+1:]`.

Because the loop may fail to terminate, it takes a fuel bound; `none`
means the bound was exhausted.  Lean's `take`/`drop` clamp
out-of-range indices where Go would panic; on the inputs considered here no
slice is out of range. -/
def indexOfComma : List Char → Option Nat
  | [] => none
  | c :: cs => if c = ',' then some 0 else (indexOfComma cs).map (· + 1)

def parseTagsLoop (orig : String) : Nat → String → List String → Option (List String)
  | 0, _, _ => none
  | Nat.succ fuel, data, acc =>
    match indexOfComma orig.toList with
    | none => some (acc ++ [data])
    | some 0 => some (acc ++ [data])
    | some (Nat.succ i) =>
      parseTagsLoop orig fuel (orig.drop (i + 2)) (acc ++ [data.take (i + 1)])

/-- `api.parseAPI` (the method on `api`, `parser/api.go` lines 141-225):
consumes tags until the stream ends or an error is raised.  The `default`
branch of the Go switch is an unimplemented TODO whose comment says the tag
should be pushed back; as written it consumes the tag and continues.
`fuel` bounds the `@apiTags` splitting loop only; `none` means that loop
diverged within the given bound. -/
def apiParseAPI (fuel : Nat) : Api → List Tag → Option (Except ParseError Api)
  | obj, [] => some (.ok obj)
  | obj, t :: rest =>
    match lowerStr t.name with
    | "@apigroup" =>
      if obj.group != "" then some (.error (.duplicateTag "@apiGroup"))
      else apiParseAPI fuel { obj with group := t.data } rest
    | "@apitags" =>
      if obj.tags.length > 0 then some (.error (.duplicateTag "@apiTags"))
      else
        match parseTagsLoop t.data fuel t.data obj.tags with
        | none => none
        | some ts => apiParseAPI fuel { obj with tags := ts } rest
    | "@apiversion" =>
      if obj.version != "" then some (.error (.duplicateTag "@apiVersion"))
      else
        if !semVerValid t.data then some (.error (.invalidFormat "@apiVersion"))
        else apiParseAPI fuel { obj with version := t.data } rest
    | "@apideprecated" =>
      apiParseAPI fuel { obj with deprecated := true } rest
    | "@apiquery" =>
      match split t.data 4 with
      | [p0, p1, p2, p3] =>
        apiParseAPI fuel
          { obj with params := obj.params ++
              [{ name := p0, inLoc := .query, description := p3,
                 required := false, allowEmptyValue := true,
                 schema := some { type := p1, defaultVal := p2 } }] } rest
      | _ => some (.error (.tagArgNotEnough "@apiQuery"))
    | "@apiparam" =>
      match split t.data 4 with
      | [p0, p1, p2, p3] =>
        apiParseAPI fuel
          { obj with params := obj.params ++
              [{ name := p0, inLoc := .path, description := p3,
                 required := true,
                 schema := some { type := p1, defaultVal := p2 } }] } rest
      | _ => some (.error (.tagArgNotEnough "@apiParam"))
    | _ =>
      -- source: `// TODO 这里不是出错，而是将当前的 tag 回退，并返回上一层。`
      -- (pushback unimplemented; the tag is consumed and the loop continues)
      apiParseAPI fuel obj rest

/-- The loop of `api.parseRequest` (`parser/api.go` lines 127-136): every
branch of the switch, including the `default` whose TODO comment says the
tag should be pushed back, is empty, so the loop consumes the whole stream
without touching `obj`.  The second component is the stream remaining for
the enclosing parser. -/
def parseRequestLoop (obj : Api) : List Tag → Api × List Tag
  | [] => (obj, [])
  | t :: rest =>
    match lowerStr t.name with
    | "@apiheader" => parseRequestLoop obj rest   -- TODO in source
    | "@apiparam" => parseRequestLoop obj rest    -- TODO in source
    | _ => parseRequestLoop obj rest              -- TODO pushback in source

/-- `api.parseRequest` (`parser/api.go` lines 116-139): replaces
`obj.request` wholesale with a fresh single-entry body, then runs the
subtree loop. -/
def apiParseRequest (obj : Api) (mimetype typ : String) (ts : List Tag) :
    Api × List Tag :=
  let body : RequestBody :=
    { content := [(mimetype, { schema := some { type := typ } })] }
  parseRequestLoop { obj with request := some body } ts

/-- `parser.parseAPI` (`parser/api.go` lines 79-114), the outer loop.  After
a successful `@api` the inner `apiParseAPI` consumes the stream to its end,
so its result is the result of the whole parse; after `@apirequest` the
subtree loop likewise consumes the stream to its end
(`parseRequestLoop_eq`), so the outer loop next observes EOF and returns
the built object. -/
def parserParseAPI (fuel : Nat) : Api → List Tag → Option (Except ParseError Api)
  | obj, [] => some (.ok obj)
  | obj, t :: rest =>
    match lowerStr t.name with
    | "@api" =>
      if obj.method != "" || obj.path != "" || obj.summary != "" then
        some (.error (.duplicateTag "@api"))
      else
        match split t.data 3 with
        | [d0, d1, d2] =>
          apiParseAPI fuel
            { obj with method := upperStr d0, path := d1, summary := d2 } rest
        | _ => some (.error (.tagArgNotEnough "@api"))
    | "@apirequest" =>
      match split t.data 2 with
      | [d0, d1] =>
        some (.ok (apiParseRequest obj d0 d1 rest).1)
      | _ => some (.error (.invalidFormat "@apiRequest"))
    | "@apiresponse" =>
      -- TODO in source
      parserParseAPI fuel obj rest
    | _ => some (.error (.invalidTag t.name))

/-! ## The document builder (`types` package, `Doc.getOperation` / `Doc.parseAPI`) -/

/-- The eight HTTP methods of the `switch` in `Doc.getOperation`
(`net/http` constants `MethodGet` … `MethodTrace`). -/
inductive Method
  | get
  | delete
  | post
  | put
  | patch
  | options
  | head
  | trace
deriving DecidableEq, Repr

/-- The canonical (uppercase) spelling of each method, the value of the
corresponding `net/http` constant. -/
def Method.canon : Method → String
  | .get => "GET"
  | .delete => "DELETE"
  | .post => "POST"
  | .put => "PUT"
  | .patch => "PATCH"
  | .options => "OPTIONS"
  | .head => "HEAD"
  | .trace => "TRACE"

/-- The dispatch of `Doc.getOperation`'s `switch strings.ToUpper(strs[0])`:
which of the eight cases a (already upper-cased) token selects; `none` is
the fall-through to the invalid-method error. -/
def methodOfString : String → Option Method
  | "GET" => some .get
  | "DELETE" => some .delete
  | "POST" => some .post
  | "PUT" => some .put
  | "PATCH" => some .patch
  | "OPTIONS" => some .options
  | "HEAD" => some .head
  | "TRACE" => some .trace
  | _ => none

/-- `openapi.Operation`, restricted to the fields written by
`Doc.parseAPI`.  `requestBody`/`responses` are `none` on the freshly
installed zero value (`&openapi.Operation{}`) and set by `Doc.parseAPI`. -/
structure Operation where
  tags : List String := []
  description : String := ""
  deprecated : Bool := false
  operationID : String := ""
  requestBody : Option RequestBody := none
  responses : Option (List (String × Unit)) := none
deriving DecidableEq, Repr

/-- `openapi.PathItem`: one optional operation per HTTP method. -/
structure PathItem where
  get : Option Operation := none
  delete : Option Operation := none
  post : Option Operation := none
  put : Option Operation := none
  patch : Option Operation := none
  options : Option Operation := none
  head : Option Operation := none
  trace : Option Operation := none
deriving DecidableEq, Repr

/-- The slot of `pi` selected by a method (`path.Get`, `path.Delete`, …). -/
def PathItem.slot (pi : PathItem) : Method → Option Operation
  | .get => pi.get
  | .delete => pi.delete
  | .post => pi.post
  | .put => pi.put
  | .patch => pi.patch
  | .options => pi.options
  | .head => pi.head
  | .trace => pi.trace

/-- Assignment to the slot selected by a method (`path.Get = …`). -/
def PathItem.setSlot (pi : PathItem) : Method → Operation → PathItem
  | .get, o => { pi with get := some o }
  | .delete, o => { pi with delete := some o }
  | .post, o => { pi with post := some o }
  | .put, o => { pi with put := some o }
  | .patch, o => { pi with patch := some o }
  | .options, o => { pi with options := some o }
  | .head, o => { pi with head := some o }
  | .trace, o => { pi with trace := some o }

/-- The `types.API` struct, restricted to the fields read by
`Doc.parseAPI`/`Doc.getOperation`.  `api` is the Go field `API`
(the text after `@api`: method, url and summary). -/
structure TypesAPI where
  api : String
  group : String := ""
  tags : List String := []
  description : String := ""
  deprecated : Bool := false
  operationID : String := ""
deriving DecidableEq, Repr

/-- The errors raised by `Doc.getOperation`, each `errors.New` with a fixed
message:
* `missingArgs` — `"缺少参数"` when `SplitN` yields fewer than 3 fields;
* `duplicateRoute m` — `"已经存在一个相同的 <m> 路由"`;
* `invalidMethod` — `"无效的请法语方法"` (the switch fall-through). -/
inductive DocError
  | missingArgs
  | duplicateRoute (m : Method)
  | invalidMethod
deriving DecidableEq, Repr

/-- `doc.OpenAPI.Paths`, a Go map from url template to `*PathItem`,
modelled as an association list mutated in place. -/
structure Doc where
  paths : List (String × PathItem) := []
deriving DecidableEq, Repr

def assocLookup : List (String × PathItem) → String → Option PathItem
  | [], _ => none
  | (k, v) :: rest, q => if k = q then some v else assocLookup rest q

/-- Map insertion/update: replaces the binding of `k` or appends it. -/
def assocSet : List (String × PathItem) → String → PathItem → List (String × PathItem)
  | [], k, v => [(k, v)]
  | (k', v') :: rest, k, v =>
    if k' = k then (k, v) :: rest else (k', v') :: assocSet rest k v

def Doc.lookupPath (doc : Doc) (p : String) : Option PathItem :=
  assocLookup doc.paths p

def Doc.setPath (doc : Doc) (p : String) (pi : PathItem) : Doc :=
  { paths := assocSet doc.paths p pi }

/-- The operation stored at `(p, m)`, if any. -/
def Doc.opAt (doc : Doc) (p : String) (m : Method) : Option Operation :=
  match doc.lookupPath p with
  | none => none
  | some pi => pi.slot m

/-- `Doc.getOperation` (`types` package, lines 73-144).  Mirrors the Go
mutation order: the map is created if nil (invisible on association
lists), the `@api` text is split, a missing `PathItem` is inserted
*before* the method is validated, and only then does the switch check the
slot.  Go mutates `doc` in place and returns a pointer into it; here the
(possibly mutated) document is returned alongside the result, which on
success locates the freshly installed empty operation. -/
def Doc.getOperation (doc : Doc) (a : TypesAPI) :
    Doc × Except DocError (String × Method) :=
  match splitN3 a.api with
  | [mt, p, _s] =>
    let pidoc : PathItem × Doc :=
      match doc.lookupPath p with
      | some pi => (pi, doc)
      | none => ({}, doc.setPath p {})
    let pi := pidoc.1
    let doc' := pidoc.2
    match methodOfString (upperStr mt) with
    | none => (doc', .error .invalidMethod)
    | some m =>
      match pi.slot m with
      | some _ => (doc', .error (.duplicateRoute m))
      | none => (doc'.setPath p (pi.setSlot m {}), .ok (p, m))
  | _ => (doc, .error .missingArgs)

/-- `API.parseParameter` (`types` package): `// TODO`, returns nil. -/
def TypesAPI.parseParameter (_a : TypesAPI) (o : Operation) :
    Except DocError Operation :=
  .ok o

/-- The operation as it stands after `Doc.parseAPI` filled the installed
zero value through its pointer. -/
def operationOf (a : TypesAPI) : Operation :=
  { tags := a.tags, description := a.description, deprecated := a.deprecated,
    operationID := a.operationID, requestBody := some { content := [] },
    responses := some [] }

/-- Overwrite the operation at `(p, m)`; models the field assignments
`Doc.parseAPI` performs through the pointer `Doc.getOperation`
returned (that pointer always refers to the path item installed for `p`,
so the `none` case below is unreachable). -/
def Doc.setOp (doc : Doc) (p : String) (m : Method) (o : Operation) : Doc :=
  match doc.lookupPath p with
  | some pi => doc.setPath p (pi.setSlot m o)
  | none => doc.setPath p (PathItem.setSlot {} m o)

/-- `Doc.parseAPI` (`types` package, lines 43-66): fetch/install the
operation, fill in its fields, run `parseParameter` (a TODO returning
nil), then set an empty request body and an empty responses map. -/
def Doc.parseAPI (doc : Doc) (a : TypesAPI) : Doc × Option DocError :=
  match doc.getOperation a with
  | (doc', .error e) => (doc', some e)
  | (doc', .ok (p, m)) =>
    let o : Operation :=
      { tags := a.tags, description := a.description,
        deprecated := a.deprecated, operationID := a.operationID }
    match a.parseParameter o with
    | .error e => (doc', some e)
    | .ok o =>
      let o := { o with requestBody := some { content := [] },
                        responses := some ([] : List (String × Unit)) }
      (doc'.setOp p m o, none)

/-! ## The lexer driver (`build` package, `Input.parseFile`) -/

/-- `core.Position`, as far as the driver loop uses it. -/
structure Pos where
  line : Nat := 0
  character : Nat := 0
deriving DecidableEq, Repr

/-- The observable behaviour of one recognized block: the opening position
returned by `Lexer.Block`, the lexer position after `EndFunc`, and
`EndFunc`'s three results `(raw, data, ok)`.  The `Blocker` interface and
the lexer scan are abstracted into this event; `Input.parseFile`'s control
flow over the events is modelled exactly. -/
structure BlockResult where
  pos : Pos
  endPos : Pos
  raw : String
  data : String
  ok : Bool
deriving DecidableEq, Repr

/-- `spec.Block` as assembled by `Input.parseFile`. -/
structure SpecBlock where
  start : Pos
  stop : Pos
  data : String
  raw : String
deriving DecidableEq, Repr

/-- The diagnostics the driver loop can emit. -/
inductive Message
  | errNotFoundEndFlag (line : Nat)
deriving DecidableEq, Repr

/-- The loop of `Input.parseFile` (`build` package, lines 236-271) over the
sequence of recognized blocks: an unterminated block reports
`ErrNotFoundEndFlag` at the opening line and abandons the file; a block
with empty `raw` is skipped; any other block is sent.  Returns the sent
blocks and the emitted diagnostics. -/
def parseFile : List BlockResult → List SpecBlock × List Message
  | [] => ([], [])
  | b :: rest =>
    if !b.ok then ([], [.errNotFoundEndFlag b.pos.line])
    else if b.raw = "" then parseFile rest
    else
      let r := parseFile rest
      ({ start := b.pos, stop := b.endPos, data := b.data, raw := b.raw } :: r.1,
       r.2)


/-! ## Theorems -/

theorem parseRequestLoop_eq (obj : Api) (ts : List Tag) :
    parseRequestLoop obj ts = (obj, []) := by
  induction ts with
  | nil => rfl
  | cons t rest ih =>
    unfold parseRequestLoop
    split <;> exact ih

theorem assocLookup_set_self (l : List (String × PathItem)) (k : String) (v : PathItem) :
    assocLookup (assocSet l k v) k = some v := by
  induction l with
  | nil => simp [assocSet, assocLookup]
  | cons hd tl ih =>
    obtain ⟨k', v'⟩ := hd
    by_cases h : k' = k
    · simp [assocSet, h, assocLookup]
    · simp [assocSet, h, assocLookup, ih]

theorem assocLookup_set_ne (l : List (String × PathItem)) (k : String) (v : PathItem)
    (q : String) (h : k ≠ q) :
    assocLookup (assocSet l k v) q = assocLookup l q := by
  induction l with
  | nil => simp [assocSet, assocLookup, h]
  | cons hd tl ih =>
    obtain ⟨k', v'⟩ := hd
    by_cases h' : k' = k
    · subst h'
      simp [assocSet, assocLookup, h]
    · simp [assocSet, h', assocLookup, ih]

theorem slot_setSlot_self (pi : PathItem) (m : Method) (o : Operation) :
    (pi.setSlot m o).slot m = some o := by
  cases m <;> rfl

theorem slot_setSlot (pi : PathItem) (m m' : Method) (o : Operation) :
    (pi.setSlot m o).slot m' = if m' = m then some o else pi.slot m' := by
  cases m <;> cases m' <;> simp [PathItem.setSlot, PathItem.slot]

theorem slot_empty (m : Method) : (({} : PathItem)).slot m = none := by
  cases m <;> rfl

theorem doc_install (doc : Doc) (a : TypesAPI) (mt p s : String) (m : Method)
    (h : splitN3 a.api = [mt, p, s]) (hm : methodOfString (upperStr mt) = some m)
    (hfree : doc.opAt p m = none) :
    (doc.parseAPI a).2 = none ∧ (doc.parseAPI a).1.opAt p m = some (operationOf a) := by
  rcases hl : assocLookup doc.paths p with _ | pi
  · simp [Doc.parseAPI, Doc.getOperation, Doc.setOp, Doc.opAt, Doc.lookupPath,
      Doc.setPath, TypesAPI.parseParameter, h, hm, hl, assocLookup_set_self,
      slot_setSlot_self, slot_empty, operationOf]
  · have hslot : pi.slot m = none := by
      simpa [Doc.opAt, Doc.lookupPath, hl] using hfree
    simp [Doc.parseAPI, Doc.getOperation, Doc.setOp, Doc.opAt, Doc.lookupPath,
      Doc.setPath, TypesAPI.parseParameter, h, hm, hl, hslot, assocLookup_set_self,
      slot_setSlot_self, operationOf]

theorem doc_dup (doc : Doc) (a : TypesAPI) (mt p s : String) (m : Method)
    (op : Operation)
    (h : splitN3 a.api = [mt, p, s]) (hm : methodOfString (upperStr mt) = some m)
    (hocc : doc.opAt p m = some op) :
    doc.parseAPI a = (doc, some (.duplicateRoute m)) := by
  rcases hl : assocLookup doc.paths p with _ | pi
  · simp [Doc.opAt, Doc.lookupPath, hl] at hocc
  · have hslot : pi.slot m = some op := by
      simpa [Doc.opAt, Doc.lookupPath, hl] using hocc
    simp [Doc.parseAPI, Doc.getOperation, Doc.lookupPath, h, hm, hl, hslot]

theorem doc_invalid (doc : Doc) (a : TypesAPI) (mt p s : String)
    (h : splitN3 a.api = [mt, p, s]) (hm : methodOfString (upperStr mt) = none) :
    (doc.parseAPI a).2 = some .invalidMethod ∧
    (∀ (q : String) (mm : Method), (doc.parseAPI a).1.opAt q mm = doc.opAt q mm) ∧
    (assocLookup doc.paths p = none →
      assocLookup (doc.parseAPI a).1.paths p = some {}) := by
  rcases hl : assocLookup doc.paths p with _ | pi
  · refine ⟨?_, ?_, ?_⟩
    · simp [Doc.parseAPI, Doc.getOperation, Doc.lookupPath, Doc.setPath, h, hm, hl]
    · intro q mm
      by_cases hq : p = q
      · subst hq
        simp [Doc.parseAPI, Doc.getOperation, Doc.lookupPath, Doc.setPath, Doc.opAt,
          h, hm, hl, assocLookup_set_self, slot_empty]
      · simp [Doc.parseAPI, Doc.getOperation, Doc.lookupPath, Doc.setPath, Doc.opAt,
          h, hm, hl, assocLookup_set_ne _ _ _ _ hq]
    · intro _
      simp [Doc.parseAPI, Doc.getOperation, Doc.lookupPath, Doc.setPath, h, hm, hl,
        assocLookup_set_self]
  · refine ⟨?_, ?_, ?_⟩
    · simp [Doc.parseAPI, Doc.getOperation, Doc.lookupPath, h, hm, hl]
    · intro q mm
      simp [Doc.parseAPI, Doc.getOperation, Doc.lookupPath, h, hm, hl]
    · intro habs
      simp [hl] at habs

theorem apiParseAPI_ok_method (fuel : Nat) (ts : List Tag) :
    ∀ (obj res : Api), apiParseAPI fuel obj ts = some (.ok res) →
      res.method = obj.method := by
  induction ts with
  | nil =>
    intro obj res h
    simp [apiParseAPI] at h
    simp [← h]
  | cons t rest ih =>
    intro obj res h
    unfold apiParseAPI at h
    split at h
    all_goals try split at h
    all_goals try split at h
    all_goals first
      | (have hh := ih _ _ h; exact hh)
      | simp_all

theorem apiParseAPI_ok_version (fuel : Nat) (ts : List Tag) :
    ∀ (obj res : Api), apiParseAPI fuel obj ts = some (Except.ok res) →
      (obj.version = "" ∨ semVerValid obj.version = true) →
      res.version = "" ∨ semVerValid res.version = true := by
  induction ts with
  | nil =>
    intro obj res h hin
    simp [apiParseAPI] at h
    simpa [← h] using hin
  | cons t rest ih =>
    intro obj res h hin
    unfold apiParseAPI at h
    split at h
    all_goals try split at h
    all_goals try split at h
    all_goals first
      | (have hh := ih _ _ h hin; exact hh)
      | (exact ih _ _ h (Or.inr (by simp_all)))
      | (simp_all; done)

theorem apiParseRequest_fst_version (obj : Api) (d0 d1 : String) (ts : List Tag) :
    ((apiParseRequest obj d0 d1 ts).1).version = obj.version := by
  simp [apiParseRequest, parseRequestLoop_eq]

theorem parserParseAPI_ok_version (fuel : Nat) (ts : List Tag) :
    ∀ (obj res : Api), parserParseAPI fuel obj ts = some (Except.ok res) →
      (obj.version = "" ∨ semVerValid obj.version = true) →
      res.version = "" ∨ semVerValid res.version = true := by
  induction ts with
  | nil =>
    intro obj res h hin
    simp [parserParseAPI] at h
    simpa [← h] using hin
  | cons t rest ih =>
    intro obj res h hin
    unfold parserParseAPI at h
    split at h
    all_goals try split at h
    all_goals try split at h
    case h_2.h_1 =>
      simp only [Option.some.injEq, Except.ok.injEq] at h
      rw [← h, apiParseRequest_fst_version]
      exact hin
    all_goals first
      | (have hh := ih _ _ h hin; exact hh)
      | (have hh := apiParseAPI_ok_version fuel rest _ _ h hin; exact hh)
      | (simp_all; done)


/-- C6: an `@apiVersion` tag stores the version exactly when the value is
a valid semantic version: an invalid value fails the whole parse with
`ErrInvalidFormat` so no API is produced, a valid value is recorded, and
consequently every API the parser returns has an empty or semver-valid
version field. -/
theorem c6_semver_gate :
    (∀ (fuel : Nat) (obj : Api) (v : String) (rest : List Tag),
        obj.version = "" → semVerValid v = false →
        apiParseAPI fuel obj ({ name := "@apiVersion", data := v } :: rest) =
          some (.error (.invalidFormat "@apiVersion"))) ∧
    (∀ (fuel : Nat) (obj : Api) (v : String) (rest : List Tag),
        obj.version = "" → semVerValid v = true →
        apiParseAPI fuel obj ({ name := "@apiVersion", data := v } :: rest) =
          apiParseAPI fuel { obj with version := v } rest) ∧
    (∀ (fuel : Nat) (ts : List Tag) (res : Api),
        parserParseAPI fuel {} ts = some (.ok res) →
        res.version = "" ∨ semVerValid res.version = true) := by
  refine ⟨?_, ?_, ?_⟩
  · intro fuel obj v rest hver hval
    have hstep : apiParseAPI fuel obj ({ name := "@apiVersion", data := v } :: rest) =
        if obj.version != "" then some (.error (.duplicateTag "@apiVersion"))
        else if !semVerValid v then some (.error (.invalidFormat "@apiVersion"))
        else apiParseAPI fuel { obj with version := v } rest := rfl
    rw [hstep, hver, hval]
    simp
  · intro fuel obj v rest hver hval
    have hstep : apiParseAPI fuel obj ({ name := "@apiVersion", data := v } :: rest) =
        if obj.version != "" then some (.error (.duplicateTag "@apiVersion"))
        else if !semVerValid v then some (.error (.invalidFormat "@apiVersion"))
        else apiParseAPI fuel { obj with version := v } rest := rfl
    rw [hstep, hver, hval]
    simp
  · intro fuel ts res h
    exact parserParseAPI_ok_version fuel ts {} res h (Or.inl rfl)

/-- C6 witness: concrete instances of `c6_semver_gate`. -/
theorem c6_semver_gate_witness :
    apiParseAPI 1 {} [{ name := "@apiVersion", data := "1.0" }] =
      some (.error (.invalidFormat "@apiVersion")) ∧
    apiParseAPI 1 {} [{ name := "@apiVersion", data := "1.0.0" }] =
      apiParseAPI 1 { version := "1.0.0" } [] :=
  ⟨c6_semver_gate.1 1 {} "1.0" [] rfl (by decide),
   c6_semver_gate.2.1 1 {} "1.0.0" [] rfl (by decide)⟩

/-- C1: each `(path, method)` pair holds at most one API: an add into a free
slot installs its operation, and any add into an occupied slot fails with
the duplicate-route error and leaves the document unchanged, so the first
occupant is never replaced. -/
theorem c1_route_unique :
    (∀ (doc : Doc) (a : TypesAPI) (mt p s : String) (m : Method),
        splitN3 a.api = [mt, p, s] → methodOfString (upperStr mt) = some m →
        doc.opAt p m = none →
        (doc.parseAPI a).2 = none ∧
        (doc.parseAPI a).1.opAt p m = some (operationOf a)) ∧
    (∀ (doc : Doc) (a : TypesAPI) (mt p s : String) (m : Method) (op : Operation),
        splitN3 a.api = [mt, p, s] → methodOfString (upperStr mt) = some m →
        doc.opAt p m = some op →
        doc.parseAPI a = (doc, some (.duplicateRoute m))) :=
  ⟨fun doc a mt p s m h hm hfree => doc_install doc a mt p s m h hm hfree,
   fun doc a mt p s m op h hm hocc => doc_dup doc a mt p s m op h hm hocc⟩

/-- C1 witness: `GET /x one` installs at `(/x, GET)`; a second add
`get /x two` fails with the duplicate-route error and leaves the document
(and the first operation) untouched. -/
theorem c1_route_unique_witness :
    ((Doc.parseAPI {} { api := "GET /x one" }).2 = none ∧
     (Doc.parseAPI {} { api := "GET /x one" }).1.opAt "/x" .get =
       some (operationOf { api := "GET /x one" })) ∧
    Doc.parseAPI { paths := [("/x", { get := some (operationOf { api := "GET /x one" }) })] }
        { api := "get /x two" } =
      ({ paths := [("/x", { get := some (operationOf { api := "GET /x one" }) })] },
       some (.duplicateRoute .get)) :=
  ⟨c1_route_unique.1 {} { api := "GET /x one" } "GET" "/x" "one" .get rfl rfl rfl,
   c1_route_unique.2
     { paths := [("/x", { get := some (operationOf { api := "GET /x one" }) })] }
     { api := "get /x two" } "get" "/x" "two" .get (operationOf { api := "GET /x one" })
     rfl (by decide) rfl⟩

/-- C4: a method token whose upper-casing is one of the eight canonical
verbs is stored canonically (the parser stores the upper-cased token, the
builder installs under the canonical slot); any other token makes the add
fail with the invalid-method error and installs no operation. -/
theorem c4_method_normalization :
    (∀ m : Method, methodOfString m.canon = some m ∧ upperStr m.canon = m.canon) ∧
    (∀ (fuel : Nat) (d d0 d1 d2 : String) (rest : List Tag) (res : Api),
        split d 3 = [d0, d1, d2] →
        parserParseAPI fuel {} ({ name := "@api", data := d } :: rest) =
          some (.ok res) →
        res.method = upperStr d0) ∧
    (∀ (doc : Doc) (a : TypesAPI) (mt p s : String) (m : Method),
        splitN3 a.api = [mt, p, s] → methodOfString (upperStr mt) = some m →
        doc.opAt p m = none →
        (doc.parseAPI a).2 = none ∧
        (doc.parseAPI a).1.opAt p m = some (operationOf a)) ∧
    (∀ (doc : Doc) (a : TypesAPI) (mt p s : String),
        splitN3 a.api = [mt, p, s] → methodOfString (upperStr mt) = none →
        (doc.parseAPI a).2 = some .invalidMethod ∧
        ∀ (q : String) (mm : Method), (doc.parseAPI a).1.opAt q mm = doc.opAt q mm) := by
  refine ⟨?_, ?_, ?_, ?_⟩
  · intro m
    cases m <;> exact ⟨rfl, rfl⟩
  · intro fuel d d0 d1 d2 rest res hsplit h
    have hstep : parserParseAPI fuel {} ({ name := "@api", data := d } :: rest) =
        match split d 3 with
        | [e0, e1, e2] =>
          apiParseAPI fuel { method := upperStr e0, path := e1, summary := e2 } rest
        | _ => some (.error (.tagArgNotEnough "@api")) := rfl
    rw [hstep, hsplit] at h
    have hh := apiParseAPI_ok_method fuel rest _ _ h
    exact hh
  · intro doc a mt p s m h hm hfree
    exact doc_install doc a mt p s m h hm hfree
  · intro doc a mt p s h hm
    exact ⟨(doc_invalid doc a mt p s h hm).1, (doc_invalid doc a mt p s h hm).2.1⟩

/-- C4 witness: concrete instances of `c4_method_normalization`. -/
theorem c4_method_normalization_witness :
    (methodOfString (Method.canon .get) = some .get ∧
     upperStr (Method.canon .get) = Method.canon .get) ∧
    ({ method := "POST", path := "/x", summary := "hi" } : Api).method = upperStr "post" ∧
    ((Doc.parseAPI {} { api := "put /y s" }).2 = none ∧
     (Doc.parseAPI {} { api := "put /y s" }).1.opAt "/y" .put =
       some (operationOf { api := "put /y s" })) ∧
    ((Doc.parseAPI {} { api := "FOO /x hi" }).2 = some .invalidMethod ∧
     ∀ (q : String) (mm : Method),
       (Doc.parseAPI {} { api := "FOO /x hi" }).1.opAt q mm = Doc.opAt {} q mm) :=
  ⟨c4_method_normalization.1 .get,
   c4_method_normalization.2.1 1 "post /x hi" "post" "/x" "hi" []
     { method := "POST", path := "/x", summary := "hi" } rfl rfl,
   c4_method_normalization.2.2.1 {} { api := "put /y s" } "put" "/y" "s" .put
     rfl (by decide) rfl,
   c4_method_normalization.2.2.2 {} { api := "FOO /x hi" } "FOO" "/x" "hi"
     rfl (by decide)⟩

/-- C9: when the method of an `@api` is invalid and its path is new, the
failed add still mutates the document: an empty `PathItem` (no operation in
any slot) remains installed under the path, because `Doc.getOperation`
inserts the path item before validating the method. -/
theorem c9_phantom_pathitem (doc : Doc) (a : TypesAPI) (mt p s : String)
    (h : splitN3 a.api = [mt, p, s]) (hm : methodOfString (upperStr mt) = none)
    (habs : assocLookup doc.paths p = none) :
    (doc.parseAPI a).2 = some .invalidMethod ∧
    assocLookup (doc.parseAPI a).1.paths p = some {} ∧
    (∀ mm : Method, PathItem.slot {} mm = none) :=
  ⟨(doc_invalid doc a mt p s h hm).1,
   (doc_invalid doc a mt p s h hm).2.2 habs,
   slot_empty⟩

/-- C9 witness: `FOO /z hi` on an empty document. -/
theorem c9_phantom_pathitem_witness :
    (Doc.parseAPI {} { api := "FOO /z hi" }).2 = some .invalidMethod ∧
    assocLookup (Doc.parseAPI {} { api := "FOO /z hi" }).1.paths "/z" = some {} ∧
    (∀ mm : Method, PathItem.slot {} mm = none) :=
  c9_phantom_pathitem {} { api := "FOO /z hi" } "FOO" "/z" "hi" rfl (by decide) rfl

/-- C7: when a recognized block's end flag is missing, the file driver
emits exactly one `ErrNotFoundEndFlag` diagnostic carrying the line of the
block's opening position and abandons the rest of the file: only the
blocks before it are emitted, none after. -/
theorem c7_unterminated_block (pre : List BlockResult) (b : BlockResult)
    (tail : List BlockResult)
    (hpre : ∀ x ∈ pre, x.ok = true) (hb : b.ok = false) :
    parseFile (pre ++ b :: tail) =
      ((parseFile pre).1, [.errNotFoundEndFlag b.pos.line]) := by
  induction pre with
  | nil => simp [parseFile, hb]
  | cons x xs ih =>
    have hx : x.ok = true := hpre x (List.mem_cons_self x xs)
    have ih' := ih (fun y hy => hpre y (List.mem_cons_of_mem x hy))
    by_cases hraw : x.raw = ""
    · simp [parseFile, hx, hraw, ih']
    · simp [parseFile, hx, hraw, ih']

/-- C7 witness: a terminated block, then an unterminated one opened at
line 5, then a further (abandoned) block. -/
theorem c7_unterminated_block_witness :
    parseFile
        ([{ pos := { line := 0 }, endPos := { line := 2 }, raw := "r", data := "d", ok := true }] ++
          { pos := { line := 5 }, endPos := { line := 5 }, raw := "", data := "", ok := false } ::
          [{ pos := { line := 9 }, endPos := { line := 9 }, raw := "x", data := "x", ok := true }]) =
      ((parseFile [{ pos := { line := 0 }, endPos := { line := 2 }, raw := "r", data := "d", ok := true }]).1,
       [.errNotFoundEndFlag 5]) :=
  c7_unterminated_block _ _ _
    (by intro x hx; rw [List.mem_singleton] at hx; subst hx; rfl) rfl

/-- C8 counterexample: a terminated block whose stripped `data` is empty
but whose `raw` is not (for example a bare `/* */`) *is* emitted by the
driver, contradicting the claim that data-empty blocks yield no RawBlock. -/
theorem c8_counterexample :
    (parseFile [{ pos := { line := 1 }, endPos := { line := 1 }, raw := "/* */", data := "", ok := true }]).1 ≠ [] ∧
    ({ pos := { line := 1 }, endPos := { line := 1 }, raw := "/* */", data := "", ok := true } : BlockResult).data = "" :=
  ⟨by decide, rfl⟩

/-- C8 (amended): the driver's drop test is on the `raw` field, not on the
stripped `data`: a terminated block with empty `raw` is silently dropped
(no block, no diagnostic), and a block with non-empty `raw` is emitted
even when its `data` is empty. -/
theorem c8_raw_empty_drop (b : BlockResult) (rest : List BlockResult)
    (hok : b.ok = true) :
    (b.raw = "" → parseFile (b :: rest) = parseFile rest) ∧
    (b.raw ≠ "" → parseFile (b :: rest) =
      ({ start := b.pos, stop := b.endPos, data := b.data, raw := b.raw } :: (parseFile rest).1,
       (parseFile rest).2)) := by
  constructor
  · intro hraw
    simp [parseFile, hok, hraw]
  · intro hraw
    simp [parseFile, hok, hraw]

/-- C8 witness: concrete instances of `c8_raw_empty_drop`. -/
theorem c8_raw_empty_drop_witness :
    (parseFile [{ pos := { line := 1 }, endPos := { line := 1 }, raw := "", data := "", ok := true }] =
      parseFile []) ∧
    (parseFile [{ pos := { line := 1 }, endPos := { line := 2 }, raw := "r", data := "", ok := true }] =
      ({ start := { line := 1 }, stop := { line := 2 }, data := "", raw := "r" } :: (parseFile []).1,
       (parseFile []).2)) :=
  ⟨(c8_raw_empty_drop _ [] rfl).1 rfl,
   (c8_raw_empty_drop _ [] rfl).2 (by decide)⟩

/-- C2: evaluation of `api.parseRequest` on a subtree containing the
unknown tag `@apiGroup`: the tag is consumed by the loop (the remaining
stream handed back to the outer parser is empty, not `[@apiGroup]`) and
has no effect on the object, so no pushback happens — the source's TODO
comment says the tag should be pushed back, but the `default` branch is
empty. -/
theorem c2_request_consumes_unknown_tag :
    apiParseRequest {} "application/json" "object" [{ name := "@apiGroup", data := "g" }] =
      ({ request := some { content := [("application/json", { schema := some { type := "object" } })] } }, []) ∧
    ({ request := some { content := [("application/json", { schema := some { type := "object" } })] } } : Api).group = "" :=
  ⟨rfl, rfl⟩

/-- C3: evaluation showing duplicate singleton tags that are *not*
rejected: a block with two `@apiDeprecated` tags parses without any
`ErrDuplicateTag`, and a second `@api` in the same block is silently
swallowed by the inner loop (its data ignored) instead of failing. -/
theorem c3_duplicate_singletons_not_rejected :
    parserParseAPI 1 {}
      [{ name := "@api", data := "GET /x one" },
       { name := "@apiDeprecated", data := "d" },
       { name := "@apiDeprecated", data := "d" }] =
      some (.ok { method := "GET", path := "/x", summary := "one", deprecated := true }) ∧
    parserParseAPI 1 {}
      [{ name := "@api", data := "GET /x one" },
       { name := "@api", data := "GET /x two" }] =
      some (.ok { method := "GET", path := "/x", summary := "one" }) :=
  ⟨rfl, rfl⟩

theorem parseTagsLoop_stuck (fuel : Nat) : ∀ acc : List String,
    parseTagsLoop "a, b ,c" fuel " b ,c" acc = none := by
  induction fuel with
  | zero => intro acc; rfl
  | succ n ih =>
    intro acc
    have hstep : parseTagsLoop "a, b ,c" (n + 1) " b ,c" acc =
        parseTagsLoop "a, b ,c" n " b ,c" (acc ++ [" "]) := rfl
    rw [hstep]
    exact ih _

/-- C5: parsing `@apiTags` with data `"a, b ,c"` does not terminate: the
loop recomputes the comma index from the original data every iteration, so
it exhausts any fuel bound (the claim expects termination with
`["a", "b", "c"]`). -/
theorem c5_tags_split_diverges (fuel : Nat) :
    apiParseAPI fuel {} [{ name := "@apiTags", data := "a, b ,c" }] = none := by
  cases fuel with
  | zero => rfl
  | succ n =>
    have hstep : apiParseAPI (n + 1) ({} : Api) [{ name := "@apiTags", data := "a, b ,c" }] =
        match parseTagsLoop "a, b ,c" (n + 1) "a, b ,c" [] with
        | none => none
        | some ts => apiParseAPI (n + 1) { tags := ts } ([] : List Tag) := rfl
    have h1 : parseTagsLoop "a, b ,c" (n + 1) "a, b ,c" [] =
        parseTagsLoop "a, b ,c" n " b ,c" ["a"] := rfl
    rw [hstep, h1, parseTagsLoop_stuck n ["a"]]

/-- C10 counterexample: in a block with two `@apiRequest` tags the second
is *not* the surviving one: the whole stream after the first `@apiRequest`
is consumed by its subtree loop, so the request body keeps the first tag's
media type (`application/json`), not the second's (`application/yaml`). -/
theorem c10_counterexample :
    parserParseAPI 1 {}
      [{ name := "@apiRequest", data := "application/json object" },
       { name := "@apiRequest", data := "application/yaml object" }] =
      some (.ok { request := some { content := [("application/json", { schema := some { type := "object" } })] } }) ∧
    some (RequestBody.mk [("application/json", { schema := some { type := "object" } })]) ≠
      some (RequestBody.mk [("application/yaml", { schema := some { type := "object" } })]) :=
  ⟨rfl, by decide⟩

/-- C10 (amended): each call of `api.parseRequest` does replace the
request body wholesale with a fresh single-entry content map, but its
subtree loop consumes the rest of the block without ever touching the
object again, so within one block only the first `@apiRequest` takes
effect and later ones are ignored. -/
theorem c10_request_wholesale (obj : Api) (mime typ : String) (ts : List Tag) :
    apiParseRequest obj mime typ ts =
      ({ obj with request := some (RequestBody.mk [(mime, MediaType.mk (some (Schema.mk typ "")))]) }, []) := by
  unfold apiParseRequest
  exact parseRequestLoop_eq _ ts

end Apidoc
